import Mathlib

/-!
Verification of the citation-format validator in
`src/backend/checkCitation/handler.py`.

The Python module exposes `lambda_handler`, which reads a `citation` string
(default `""`) and a `format` string (default `"apa"`, lowercased) from the
request payload and dispatches through `validate_citation` to `validate_apa`
or `validate_mla`, each of which is an anchored regular-expression check
(`re.match`).  Citation strings are modeled as `List Char`; the result
dictionaries are modeled by the structure `ValidationResult` below.
-/

/-- Result dictionary built by the validators.  The unsupported-format branch
of `validate_citation` builds a dictionary without the `hasRequiredFields`
key, so that field is modeled as `Option Bool`: `some b` when the key is
present with value `b`, `none` when the key is absent. -/
structure ValidationResult where
  formatCorrect : Bool
  hasRequiredFields : Option Bool
  issues : List String
  deriving DecidableEq, Repr

/-- Tail test of the APA regex after the leading `[^(]+` has been consumed:
the remainder must start with `(`, four decimal digits (`\d{4}`; the model
restricts Python's digit class to ASCII decimal digits), `)`, `.`, and then
`.+` must consume at least one character, which may not be a newline since
the pattern is compiled without `DOTALL`.  Nothing is required after that
one character because `re.match` is not anchored at the end. -/
def apaTail : List Char → Bool
  | '(' :: d1 :: d2 :: d3 :: d4 :: ')' :: '.' :: c :: _ =>
      d1.isDigit && d2.isDigit && d3.isDigit && d4.isDigit && c != '\n'
  | _ => false

/-- The anchored match `re.match(r'^[^(]+\(\d{4}\)\..+', citation)` used by
`validate_apa`, compiled to a deterministic matcher.  The greedy class
`[^(]+` matches exactly the (non-empty) run of characters before the first
`(` of the string: it can never backtrack past a `(`, and the literal `\(`
that follows must consume that first `(`.  Hence the match succeeds iff the
string has at least one character before its first `(` and the remainder
from that `(` on passes `apaTail`. -/
def apaMatch (s : List Char) : Bool :=
  !(s.takeWhile (fun c => c != '(')).isEmpty
    && apaTail (s.dropWhile (fun c => c != '('))

/-- Tail test of the MLA regex after the leading `[^.]+`: the remainder must
start with `.` followed by at least one non-newline character (`.+`, no
`DOTALL`, no end anchor). -/
def mlaTail : List Char → Bool
  | '.' :: c :: _ => c != '\n'
  | _ => false

/-- The anchored match `re.match(r'^[^.]+\..+', citation)` used by
`validate_mla`, compiled to a deterministic matcher: a non-empty run of
characters before the first `.` of the string, then that `.`, then at least
one non-newline character. -/
def mlaMatch (s : List Char) : Bool :=
  !(s.takeWhile (fun c => c != '.')).isEmpty
    && mlaTail (s.dropWhile (fun c => c != '.'))

/-- `validate_apa` from handler.py. -/
def validate_apa (citation : List Char) : ValidationResult :=
  { formatCorrect := apaMatch citation
    hasRequiredFields := some (apaMatch citation)
    issues := if apaMatch citation then [] else ["Does not match APA format"] }

/-- `validate_mla` from handler.py. -/
def validate_mla (citation : List Char) : ValidationResult :=
  { formatCorrect := mlaMatch citation
    hasRequiredFields := some (mlaMatch citation)
    issues := if mlaMatch citation then [] else ["Does not match MLA format"] }

/-- `validate_citation` from handler.py.  Note that the final branch builds
its dictionary without a `hasRequiredFields` key. -/
def validate_citation (citation : List Char) (format_type : String) : ValidationResult :=
  if format_type = "apa" then validate_apa citation
  else if format_type = "mla" then validate_mla citation
  else { formatCorrect := false
         hasRequiredFields := none
         issues := ["Unsupported format"] }

/-- Request payload of `lambda_handler`: `event.get('citation', '')` and
`event.get('format', 'apa')` are modeled by `Option`-valued fields, `none`
standing for an absent key. -/
structure Event where
  citation : Option String
  format : Option String

/-- Response of `lambda_handler`.  `json.dumps` of the result dictionary is
modeled by carrying the `ValidationResult` itself in the body. -/
structure Response where
  statusCode : Nat
  body : ValidationResult
  deriving DecidableEq, Repr

/-- Python's `str.lower` on a single character, restricted to the ASCII case
mapping (sufficient for the style tokens compared by `validate_citation`):
uppercase ASCII letters map to their lowercase forms, everything else is
kept. -/
def pyLowerChar (c : Char) : Char :=
  if 'A' ≤ c ∧ c ≤ 'Z' then Char.ofNat (c.toNat + 32) else c

/-- Python's `str.lower` (ASCII fragment), applied characterwise. -/
def pyLower (f : String) : String := ⟨f.data.map pyLowerChar⟩

/-- `lambda_handler` from handler.py: defaults the missing fields, lowercases
the format, and wraps the validation result in a 200 response.  Every
operation on the success path is total on string inputs, so the `except`
branch returning a 500 response is unreachable in this model and does not
appear. -/
def lambda_handler (event : Event) : Response :=
  { statusCode := 200
    body := validate_citation (event.citation.getD "").data
      (pyLower (event.format.getD "apa")) }

/-- Mutable module state of handler.py.  The module defines no module-level
mutable state (`os` is imported but never used, and no global is ever
written), so the state type is a singleton. -/
def HandlerState : Type := Unit

/-- `validate_citation` viewed as a state transformer over the module state,
making explicit that the Python function neither reads nor writes anything
besides its arguments. -/
def validate_citation_st (σ : HandlerState) (c : List Char) (f : String) :
    ValidationResult × HandlerState := (validate_citation c f, σ)

/-- The APA shape exactly as claim C1 words it: one or more characters that
are not an opening parenthesis, an opening parenthesis, exactly four digits,
a closing parenthesis, a period, then one or more additional characters. -/
def apaClaimShape (s : List Char) : Prop :=
  ∃ a d1 d2 d3 d4 b, s = a ++ '(' :: d1 :: d2 :: d3 :: d4 :: ')' :: '.' :: b
    ∧ a ≠ [] ∧ (∀ x ∈ a, x ≠ '(')
    ∧ d1.isDigit = true ∧ d2.isDigit = true ∧ d3.isDigit = true ∧ d4.isDigit = true
    ∧ b ≠ []

/-- The APA shape the code actually accepts: as `apaClaimShape`, but the
character immediately following the period must not be a newline. -/
def apaCodeShape (s : List Char) : Prop :=
  ∃ a d1 d2 d3 d4 c b, s = a ++ '(' :: d1 :: d2 :: d3 :: d4 :: ')' :: '.' :: c :: b
    ∧ a ≠ [] ∧ (∀ x ∈ a, x ≠ '(')
    ∧ d1.isDigit = true ∧ d2.isDigit = true ∧ d3.isDigit = true ∧ d4.isDigit = true
    ∧ c ≠ '\n'

/-- The MLA shape exactly as claim C2 words it: a non-empty leading segment
(ended by its first period), the period, then at least one more character. -/
def mlaClaimShape (s : List Char) : Prop :=
  ∃ a b, s = a ++ '.' :: b ∧ a ≠ [] ∧ (∀ x ∈ a, x ≠ '.') ∧ b ≠ []

/-- The MLA shape the code actually accepts: as `mlaClaimShape`, but the
character immediately following the period must not be a newline. -/
def mlaCodeShape (s : List Char) : Prop :=
  ∃ a c b, s = a ++ '.' :: c :: b ∧ a ≠ [] ∧ (∀ x ∈ a, x ≠ '.') ∧ c ≠ '\n'

section SplitLemmas

/-- If every character of `a` satisfies `p` and `x` does not, then `a` is the
`takeWhile p` part of `a ++ x :: r`. -/
theorem takeWhile_of_split (p : Char → Bool) (a r : List Char) (x : Char)
    (ha : ∀ c ∈ a, p c = true) (hx : p x = false) :
    (a ++ x :: r).takeWhile p = a := by
  induction a with
  | nil => simp [List.takeWhile_cons, hx]
  | cons y ys ih =>
      have hy : p y = true := ha y (by simp)
      simp only [List.cons_append, List.takeWhile_cons, hy, if_true]
      rw [ih (fun c hc => ha c (by simp [hc]))]

/-- If every character of `a` satisfies `p` and `x` does not, then `x :: r`
is the `dropWhile p` part of `a ++ x :: r`. -/
theorem dropWhile_of_split (p : Char → Bool) (a r : List Char) (x : Char)
    (ha : ∀ c ∈ a, p c = true) (hx : p x = false) :
    (a ++ x :: r).dropWhile p = x :: r := by
  induction a with
  | nil => simp [List.dropWhile_cons, hx]
  | cons y ys ih =>
      have hy : p y = true := ha y (by simp)
      simp only [List.cons_append, List.dropWhile_cons, hy, if_true]
      exact ih (fun c hc => ha c (by simp [hc]))

end SplitLemmas

/-- `apaTail` accepts exactly the lists of the form
`('(', d, d, d, d, ')', '.', c, …)` with `d` digits and `c` not a newline. -/
theorem apaTail_iff (t : List Char) : apaTail t = true ↔
    ∃ d1 d2 d3 d4 c b, t = '(' :: d1 :: d2 :: d3 :: d4 :: ')' :: '.' :: c :: b
      ∧ d1.isDigit = true ∧ d2.isDigit = true ∧ d3.isDigit = true ∧ d4.isDigit = true
      ∧ c ≠ '\n' := by
  constructor
  · intro h
    unfold apaTail at h
    split at h
    · rename_i d1 d2 d3 d4 c b
      simp only [Bool.and_eq_true, bne_iff_ne, ne_eq] at h
      exact ⟨d1, d2, d3, d4, c, b, rfl, h.1.1.1.1, h.1.1.1.2, h.1.1.2, h.1.2, h.2⟩
    · exact absurd h (by simp)
  · rintro ⟨d1, d2, d3, d4, c, b, rfl, h1, h2, h3, h4, hc⟩
    simp [apaTail, h1, h2, h3, h4, hc]

/-- `mlaTail` accepts exactly the lists of the form `('.', c, …)` with `c`
not a newline. -/
theorem mlaTail_iff (t : List Char) : mlaTail t = true ↔
    ∃ c b, t = '.' :: c :: b ∧ c ≠ '\n' := by
  constructor
  · intro h
    unfold mlaTail at h
    split at h
    · rename_i c b
      simp only [bne_iff_ne, ne_eq] at h
      exact ⟨c, b, rfl, h⟩
    · exact absurd h (by simp)
  · rintro ⟨c, b, rfl, hc⟩
    simp [mlaTail, hc]

/-- `apaMatch` decides exactly the shape `apaCodeShape`. -/
theorem apaMatch_iff (s : List Char) : apaMatch s = true ↔ apaCodeShape s := by
  constructor
  · intro h
    simp only [apaMatch, Bool.and_eq_true, Bool.not_eq_true', List.isEmpty_eq_false] at h
    obtain ⟨hne, htail⟩ := h
    obtain ⟨d1, d2, d3, d4, c, b, hdrop, h1, h2, h3, h4, hc⟩ := (apaTail_iff _).mp htail
    refine ⟨s.takeWhile (fun c => c != '('), d1, d2, d3, d4, c, b, ?_, hne, ?_, h1, h2, h3, h4, hc⟩
    · conv_lhs => rw [← List.takeWhile_append_dropWhile (p := fun c => c != '(') (l := s)]
      rw [hdrop]
    · intro x hx
      have := List.mem_takeWhile_imp hx
      simpa using this
  · rintro ⟨a, d1, d2, d3, d4, c, b, rfl, hne, hnp, h1, h2, h3, h4, hc⟩
    have ha : ∀ x ∈ a, (fun c => c != '(') x = true := by
      intro x hx; simpa using hnp x hx
    have hx : (fun c => c != '(') '(' = false := by simp
    simp only [apaMatch, Bool.and_eq_true, Bool.not_eq_true', List.isEmpty_eq_false]
    constructor
    · rw [takeWhile_of_split _ a _ '(' ha hx]; exact hne
    · rw [dropWhile_of_split _ a _ '(' ha hx]
      exact (apaTail_iff _).mpr ⟨d1, d2, d3, d4, c, b, rfl, h1, h2, h3, h4, hc⟩

/-- `mlaMatch` decides exactly the shape `mlaCodeShape`. -/
theorem mlaMatch_iff (s : List Char) : mlaMatch s = true ↔ mlaCodeShape s := by
  constructor
  · intro h
    simp only [mlaMatch, Bool.and_eq_true, Bool.not_eq_true', List.isEmpty_eq_false] at h
    obtain ⟨hne, htail⟩ := h
    obtain ⟨c, b, hdrop, hc⟩ := (mlaTail_iff _).mp htail
    refine ⟨s.takeWhile (fun c => c != '.'), c, b, ?_, hne, ?_, hc⟩
    · conv_lhs => rw [← List.takeWhile_append_dropWhile (p := fun c => c != '.') (l := s)]
      rw [hdrop]
    · intro x hx
      have := List.mem_takeWhile_imp hx
      simpa using this
  · rintro ⟨a, c, b, rfl, hne, hnp, hc⟩
    have ha : ∀ x ∈ a, (fun c => c != '.') x = true := by
      intro x hx; simpa using hnp x hx
    have hx : (fun c => c != '.') '.' = false := by simp
    simp only [mlaMatch, Bool.and_eq_true, Bool.not_eq_true', List.isEmpty_eq_false]
    constructor
    · rw [takeWhile_of_split _ a _ '.' ha hx]; exact hne
    · rw [dropWhile_of_split _ a _ '.' ha hx]
      exact (mlaTail_iff _).mpr ⟨c, b, rfl, hc⟩

/-- C1 (counterexample): the claim's iff fails on the code.  The citation
"A(2020).\n" matches the claimed APA shape — the newline is the "one or more
additional characters" after the period — yet `validate_apa` rejects it,
because `.+` in a pattern compiled without `DOTALL` cannot match a
newline. -/
theorem c1_counterexample :
    ¬ (((validate_citation "A(2020).\n".data "apa").formatCorrect = true)
        ↔ apaClaimShape "A(2020).\n".data) := by
  intro h
  have hshape : apaClaimShape "A(2020).\n".data :=
    ⟨['A'], '2', '0', '2', '0', ['\n'], by decide, by decide, by decide,
      by decide, by decide, by decide, by decide, by decide⟩
  exact absurd (h.mpr hshape) (by decide)

/-- C1 (amended): validating with style "apa" yields `formatCorrect = true`
iff the citation consists of one or more non-`(` characters, `(`, exactly
four digits, `)`, `.`, then at least one additional character the first of
which is not a newline; and the issues list is empty when the format is
correct and `["Does not match APA format"]` otherwise. -/
theorem c1_apa_format_rule (s : List Char) :
    ((validate_citation s "apa").formatCorrect = true ↔ apaCodeShape s)
    ∧ (validate_citation s "apa").issues
        = (if (validate_citation s "apa").formatCorrect then []
           else ["Does not match APA format"]) := by
  have hsel : validate_citation s "apa" = validate_apa s := by
    simp [validate_citation]
  rw [hsel]
  refine ⟨?_, ?_⟩
  · simpa [validate_apa] using apaMatch_iff s
  · by_cases h : apaMatch s <;> simp [validate_apa, h]

/-- C2 (counterexample): the claim's iff fails on the code.  The citation
"A.\n" has a non-empty leading segment terminated by a period and one
additional character after it — the newline — yet `validate_mla` rejects it,
because `.+` cannot match a newline. -/
theorem c2_counterexample :
    ¬ (((validate_citation "A.\n".data "mla").formatCorrect = true)
        ↔ mlaClaimShape "A.\n".data) := by
  intro h
  have hshape : mlaClaimShape "A.\n".data :=
    ⟨['A'], ['\n'], by decide, by decide, by decide, by decide⟩
  exact absurd (h.mpr hshape) (by decide)

/-- C2 (amended): validating with style "mla" yields `formatCorrect = true`
iff the citation has a non-empty leading period-free segment, its first
period, and then at least one additional character the first of which is not
a newline; the issues list is empty when the format is correct and
`["Does not match MLA format"]` otherwise. -/
theorem c2_mla_format_rule (s : List Char) :
    ((validate_citation s "mla").formatCorrect = true ↔ mlaCodeShape s)
    ∧ (validate_citation s "mla").issues
        = (if (validate_citation s "mla").formatCorrect then []
           else ["Does not match MLA format"]) := by
  have hsel : validate_citation s "mla" = validate_mla s := by
    simp [validate_citation]
  rw [hsel]
  refine ⟨?_, ?_⟩
  · simpa [validate_mla] using mlaMatch_iff s
  · by_cases h : mlaMatch s <;> simp [validate_mla, h]

/-- C3 (counterexample): for an unrecognized style the returned record is
not the claimed three-field record — the `hasRequiredFields` key is absent
from the dictionary built by the final branch of `validate_citation`. -/
theorem c3_counterexample :
    validate_citation "x".data "chicago"
      ≠ { formatCorrect := false, hasRequiredFields := some false,
          issues := ["Unsupported format"] } := by decide

/-- C3 (amended): for every style outside {"apa", "mla"} validation yields
exactly `formatCorrect = false` and `issues = ["Unsupported format"]`, with
no `hasRequiredFields` field in the record. -/
theorem c3_unsupported_format (c : List Char) (f : String)
    (h1 : f ≠ "apa") (h2 : f ≠ "mla") :
    validate_citation c f
      = { formatCorrect := false, hasRequiredFields := none,
          issues := ["Unsupported format"] } := by
  simp [validate_citation, h1, h2]

/-- C3 (witness): the amended statement instantiated at style "chicago". -/
theorem c3_witness :
    (("chicago" : String) ≠ "apa" ∧ ("chicago" : String) ≠ "mla")
    ∧ validate_citation "x".data "chicago"
      = { formatCorrect := false, hasRequiredFields := none,
          issues := ["Unsupported format"] } :=
  ⟨⟨by decide, by decide⟩,
    c3_unsupported_format "x".data "chicago" (by decide) (by decide)⟩

/-- C4: for every citation and style the issues list is empty exactly when
`formatCorrect` is true. -/
theorem c4_issues_empty_iff_format_correct (c : List Char) (f : String) :
    (validate_citation c f).issues = []
      ↔ (validate_citation c f).formatCorrect = true := by
  unfold validate_citation
  split_ifs
  · by_cases h : apaMatch c <;> simp [validate_apa, h]
  · by_cases h : mlaMatch c <;> simp [validate_mla, h]
  · simp

/-- C5: validation is total — it always returns a `ValidationResult`, either
a success or a failure carrying a descriptive issue; the exception branch of
the handler is unreachable from `validate_citation`, whose operations are
all total on string inputs. -/
theorem c5_never_raises (c : List Char) (f : String) :
    (validate_citation c f).formatCorrect = true
    ∨ ((validate_citation c f).formatCorrect = false
        ∧ (validate_citation c f).issues ≠ []) := by
  unfold validate_citation
  split_ifs
  · by_cases h : apaMatch c <;> simp [validate_apa, h]
  · by_cases h : mlaMatch c <;> simp [validate_mla, h]
  · simp

/-- C6: style matching is case-insensitive — two style spellings with the
same lowercasing produce identical handler responses for every citation. -/
theorem c6_case_insensitive (s f g : String) (h : pyLower f = pyLower g) :
    lambda_handler { citation := some s, format := some f }
      = lambda_handler { citation := some s, format := some g } := by
  simp [lambda_handler, h]

/-- C6 (witness): "APA" and "apa" lowercase alike and validate alike. -/
theorem c6_witness :
    pyLower "APA" = pyLower "apa"
    ∧ lambda_handler { citation := some "x", format := some "APA" }
      = lambda_handler { citation := some "x", format := some "apa" } :=
  ⟨by decide, c6_case_insensitive "x" "APA" "apa" (by decide)⟩

/-- C7 (counterexample): for an unrecognized style the result has no
`hasRequiredFields` field at all, so the field is not present and equal to
`formatCorrect` in every result. -/
theorem c7_counterexample :
    ¬ ((validate_citation "y".data "bibtex").hasRequiredFields
        = some (validate_citation "y".data "bibtex").formatCorrect) := by decide

/-- C7 (amended): for the recognized styles "apa" and "mla" the
`hasRequiredFields` field is present and equal to `formatCorrect`; for
unrecognized styles the field is absent. -/
theorem c7_has_required_fields (c : List Char) (f : String)
    (h : f = "apa" ∨ f = "mla") :
    (validate_citation c f).hasRequiredFields
      = some (validate_citation c f).formatCorrect := by
  rcases h with h | h <;> subst h <;>
    simp [validate_citation, validate_apa, validate_mla]

/-- C7 (witness): the amended statement instantiated at style "apa". -/
theorem c7_witness :
    (("apa" : String) = "apa" ∨ ("apa" : String) = "mla")
    ∧ (validate_citation "y".data "apa").hasRequiredFields
        = some (validate_citation "y".data "apa").formatCorrect :=
  ⟨Or.inl rfl, c7_has_required_fields "y".data "apa" (Or.inl rfl)⟩

/-- C8: a payload without a citation is handled as the empty citation, a
payload without a format is handled as "apa", and the success response is a
200 whose body is the validation result of the (lowercased) inputs. -/
theorem c8_handler_defaults :
    (∀ f, lambda_handler { citation := none, format := f }
        = lambda_handler { citation := some "", format := f })
    ∧ (∀ c, lambda_handler { citation := c, format := none }
        = lambda_handler { citation := c, format := some "apa" })
    ∧ (∀ c f, lambda_handler { citation := some c, format := some f }
        = { statusCode := 200,
            body := validate_citation c.data (pyLower f) }) :=
  ⟨fun _ => rfl, fun _ => rfl, fun _ _ => rfl⟩

/-- C9: validation is deterministic and idempotent — run over the (trivial)
module state, a repeated call returns the same result and the state is
unchanged, so no hidden state affects the outcome. -/
theorem c9_deterministic_idempotent (σ : HandlerState) (c : List Char)
    (f : String) :
    (validate_citation_st σ c f).1
      = (validate_citation_st (validate_citation_st σ c f).2 c f).1
    ∧ (validate_citation_st σ c f).2 = σ :=
  ⟨rfl, rfl⟩

/-- C10: for style "mla", when the character right after the first period of
the citation is a newline, validation fails even if more characters follow
the period. -/
theorem c10_newline_after_first_period (a b : List Char) (h : '.' ∉ a) :
    (validate_mla (a ++ '.' :: '\n' :: b)).formatCorrect = false := by
  have hshape : ¬ mlaCodeShape (a ++ '.' :: '\n' :: b) := by
    rintro ⟨a', c, b', heq, hne', hnp', hc⟩
    have ha : ∀ x ∈ a, (fun c => c != '.') x = true := by
      intro x hx
      simp only [bne_iff_ne, ne_eq]
      intro hxe
      exact h (hxe ▸ hx)
    have ha' : ∀ x ∈ a', (fun c => c != '.') x = true := by
      intro x hx
      simp only [bne_iff_ne, ne_eq]
      exact hnp' x hx
    have hx : (fun c : Char => c != '.') '.' = false := by simp
    have h1 := dropWhile_of_split (fun c => c != '.') a ('\n' :: b) '.' ha hx
    have h2 := dropWhile_of_split (fun c => c != '.') a' (c :: b') '.' ha' hx
    rw [heq, h2] at h1
    injection h1 with hhead htail
    injection htail with hc2 _
    exact hc hc2
  show mlaMatch (a ++ '.' :: '\n' :: b) = false
  cases hm : mlaMatch (a ++ '.' :: '\n' :: b) with
  | false => rfl
  | true => exact absurd ((mlaMatch_iff _).mp hm) hshape

/-- C10 (witness): the spec's own shape "Smith.\nTitle" is rejected. -/
theorem c10_witness :
    '.' ∉ "Smith".data
    ∧ (validate_mla ("Smith".data ++ '.' :: '\n' :: "Title".data)).formatCorrect
        = false :=
  ⟨by decide, c10_newline_after_first_period "Smith".data "Title".data (by decide)⟩

example : apaMatch "Smith, J. (2020). A study of things.".data = true := by decide
example : apaMatch "Smith, J. 2020. A study of things.".data = false := by decide
example : apaMatch "(2020). A study of things.".data = false := by decide
example : apaMatch "A(2020).\n".data = false := by decide
example : mlaMatch "Smith, John. A Study of Things.".data = true := by decide
example : mlaMatch "Smith John A Study of Things".data = false := by decide
example : mlaMatch "Smith.\nProfile".data = false := by decide
